import Mathlib

/-!
Shallow embedding of the Mordecai-api multi-tenant authorization core:
the OrganizationUser (membership) model, the Organization hierarchy
model, and the tenant middleware / access guards.

JSONB permission objects are modelled as association lists
(`List (String × ·)`) with JavaScript object semantics: property read is
the first matching key, property write updates the first matching key in
place or appends a fresh key at the end.
-/

namespace Mordecai

/-- One resource's action sub-map (`{ read: true, write: false, ... }`). -/
abbrev ActionMap := List (String × Bool)

/-- A full permissions object (`{ users: {...}, reports: {...}, ... }`). -/
abbrev Perms := List (String × ActionMap)

/-- JavaScript property read `obj[k]`: first matching key, else absent. -/
def lookupKey {α : Type} : List (String × α) → String → Option α
  | [], _ => none
  | p :: rest, k => if p.1 = k then some p.2 else lookupKey rest k

/-- JavaScript property write `obj[k] = v`: update the first matching key
in place, or append the key at the end when absent. -/
def setKey {α : Type} : List (String × α) → String → α → List (String × α)
  | [], k, v => [(k, v)]
  | p :: rest, k, v => if p.1 = k then (k, v) :: rest else p :: setKey rest k v

/-- `OrganizationUser.getRolePermissions(role)` (part_000 lines 305-352):
the six static role tables; an unknown role falls back to the `guest`
table (`rolePermissions[role] || rolePermissions.guest`). -/
def getRolePermissions (role : String) : Perms :=
  if role = "owner" then
    [("users", [("read", true), ("write", true), ("delete", true), ("invite", true)]),
     ("organizations", [("read", true), ("write", true), ("delete", true), ("settings", true)]),
     ("reports", [("read", true), ("write", true), ("export", true)]),
     ("billing", [("read", true), ("write", true)]),
     ("api", [("read", true), ("write", true)])]
  else if role = "admin" then
    [("users", [("read", true), ("write", true), ("delete", true), ("invite", true)]),
     ("organizations", [("read", true), ("write", true), ("delete", false), ("settings", true)]),
     ("reports", [("read", true), ("write", true), ("export", true)]),
     ("billing", [("read", true), ("write", false)]),
     ("api", [("read", true), ("write", true)])]
  else if role = "manager" then
    [("users", [("read", true), ("write", true), ("delete", false), ("invite", true)]),
     ("organizations", [("read", true), ("write", false), ("delete", false), ("settings", false)]),
     ("reports", [("read", true), ("write", true), ("export", true)]),
     ("billing", [("read", false), ("write", false)]),
     ("api", [("read", true), ("write", false)])]
  else if role = "employee" then
    [("users", [("read", true), ("write", false), ("delete", false), ("invite", false)]),
     ("organizations", [("read", true), ("write", false), ("delete", false), ("settings", false)]),
     ("reports", [("read", true), ("write", false), ("export", false)]),
     ("billing", [("read", false), ("write", false)]),
     ("api", [("read", false), ("write", false)])]
  else if role = "viewer" then
    [("users", [("read", true), ("write", false), ("delete", false), ("invite", false)]),
     ("organizations", [("read", true), ("write", false), ("delete", false), ("settings", false)]),
     ("reports", [("read", true), ("write", false), ("export", false)]),
     ("billing", [("read", false), ("write", false)]),
     ("api", [("read", false), ("write", false)])]
  else
    [("users", [("read", false), ("write", false), ("delete", false), ("invite", false)]),
     ("organizations", [("read", true), ("write", false), ("delete", false), ("settings", false)]),
     ("reports", [("read", false), ("write", false), ("export", false)]),
     ("billing", [("read", false), ("write", false)]),
     ("api", [("read", false), ("write", false)])]

/-- `OrganizationUser.prototype.hasPermission(resource, action)`
(part_000 lines 194-203): `this.permissions || {}`, absent resource key
yields `false`, otherwise `resourcePerms[action] === true`. -/
def hasPermission (permissions : Option Perms) (resource action : String) : Bool :=
  match lookupKey (permissions.getD []) resource with
  | none => false
  | some resourcePerms => lookupKey resourcePerms action = some true

/-- `OrganizationUser.prototype.grantPermission(resource, action)`
(part_000 lines 205-215): create the resource sub-object when absent,
then set the action cell to `true`. -/
def grantPermission (permissions : Option Perms) (resource action : String) : Perms :=
  match lookupKey (permissions.getD []) resource with
  | none => permissions.getD [] ++ [(resource, [(action, true)])]
  | some resourcePerms => setKey (permissions.getD []) resource (setKey resourcePerms action true)

/-- Inner loop of the `beforeUpdate` hook (part_000 lines 374-378): for
every action key of the prior sub-map whose cell is `true`, set that cell
to `true` in the new default sub-map. -/
def applyTrueGrants (sub csub : ActionMap) : ActionMap :=
  csub.foldl (fun acc p => if p.2 then setKey acc p.1 true else acc) sub

/-- One outer iteration of the `beforeUpdate` merge (part_000 lines
372-380): a resource of the prior map is re-applied only when it is also
present in the accumulated map (`if (mergedPermissions[resource])`). -/
def mergeStep (merged : Perms) (p : String × ActionMap) : Perms :=
  match lookupKey merged p.1 with
  | none => merged
  | some sub => setKey merged p.1 (applyTrueGrants sub p.2)

/-- Merge of the `beforeUpdate` hook (part_000 lines 365-382): start from
the new role's default matrix and fold `mergeStep` over the prior map's
resources. -/
def mergeRolePermissions (defaults current : Perms) : Perms :=
  current.foldl mergeStep defaults

/-- `beforeUpdate` hook (part_000 lines 362-384), role-changed branch:
the recomputed permission map after a role change. -/
def beforeUpdateRoleChange (newRole : String) (currentPermissions : Option Perms) : Perms :=
  mergeRolePermissions (getRolePermissions newRole) (currentPermissions.getD [])

/-- The `permissions` column's `defaultValue` (part_000 lines 53-79): a
fully keyed, all-`false` map. -/
def permissionsFieldDefault : Perms :=
  [("users", [("read", false), ("write", false), ("delete", false), ("invite", false)]),
   ("organizations", [("read", false), ("write", false), ("delete", false), ("settings", false)]),
   ("reports", [("read", false), ("write", false), ("export", false)]),
   ("billing", [("read", false), ("write", false)]),
   ("api", [("read", false), ("write", false)])]

/-- The `role` column's `defaultValue` is `'employee'` (part_000 line 45);
Sequelize fills it at `build` time when the attribute is not supplied. -/
def buildRole (supplied : Option String) : String :=
  supplied.getD "employee"

/-- Sequelize applies an attribute's `defaultValue` when the instance is
built, i.e. before any `beforeCreate` hook runs; an unsupplied
`permissions` attribute therefore already holds the all-`false` field
default when the hook fires. -/
def buildPermissions (supplied : Option Perms) : Perms :=
  supplied.getD permissionsFieldDefault

/-- `beforeCreate` hook (part_000 lines 355-360): replace the permission
map with the role's default matrix only when it is absent or has no keys
(`!orgUser.permissions || Object.keys(orgUser.permissions).length === 0`). -/
def beforeCreatePermissions (role : String) (perms : Perms) : Perms :=
  if perms.isEmpty then getRolePermissions role else perms

/-- The permission map stored by `create`: build-time defaults, then the
`beforeCreate` hook. -/
def createdPermissions (suppliedRole : Option String) (suppliedPerms : Option Perms) : Perms :=
  beforeCreatePermissions (buildRole suppliedRole) (buildPermissions suppliedPerms)

/-! ## Organization hierarchy (part_001) -/

/-- A row of the `organizations` table, with the fields the hierarchy
walks use. Ids model UUIDs. -/
structure Org where
  id : Nat
  name : String
  slug : String
  parentId : Option Nat
  isActive : Bool
deriving DecidableEq, Repr

/-- The organizations table. -/
abbrev OrgStore := List Org

/-- `Organization.findByPk(id)`: primary-key lookup. -/
def findByPk (store : OrgStore) (id : Nat) : Option Org :=
  store.find? (fun o => o.id = id)

/-- One entry of the list `getFullHierarchy` builds (part_001 lines 153-157). -/
structure HierarchyEntry where
  id : Nat
  name : String
  slug : String
deriving DecidableEq, Repr

def entryOf (o : Org) : HierarchyEntry :=
  { id := o.id, name := o.name, slug := o.slug }

/-- `Organization.prototype.getFullHierarchy()` (part_001 lines 148-167),
with the unbounded `while (current)` loop made explicit by fuel: each
iteration prepends the current entry and follows `parentId` through
`findByPk`; `none` means the loop is still running after `fuel`
iterations. The source has no depth bound of its own. -/
def getFullHierarchyFuel (store : OrgStore) : Nat → Org → List HierarchyEntry → Option (List HierarchyEntry)
  | 0, _, _ => none
  | fuel + 1, current, hierarchy =>
    let hierarchy := entryOf current :: hierarchy
    match current.parentId with
    | none => some hierarchy
    | some pid =>
      match findByPk store pid with
      | none => some hierarchy
      | some parent => getFullHierarchyFuel store fuel parent hierarchy

/-- `getFullHierarchy` started from an organization with an empty
accumulator. -/
def getFullHierarchy (store : OrgStore) (fuel : Nat) (org : Org) : Option (List HierarchyEntry) :=
  getFullHierarchyFuel store fuel org []

/-- `Organization.prototype.isDescendantOf(ancestorId)` (part_001 lines
200-211), fuelled: follow `parentId`; `true` as soon as the parent id
equals `ancestorId`, `false` when the chain ends (no parent, or a parent
id that resolves to no row), `none` when fuel runs out first. -/
def isDescendantOf (store : OrgStore) : Nat → Org → Nat → Option Bool
  | 0, _, _ => none
  | fuel + 1, current, ancestorId =>
    match current.parentId with
    | none => some false
    | some pid =>
      if pid = ancestorId then some true
      else
        match findByPk store pid with
        | none => some false
        | some parent => isDescendantOf store fuel parent ancestorId

/-- `Organization.validateHierarchy(parentId, childId)` (part_001 lines
240-252): `false` on a missing or equal id pair, `false` on a missing
parent row, otherwise the negation of `parent.isDescendantOf(childId)`. -/
def validateHierarchy (store : OrgStore) (fuel : Nat) (parentId childId : Option Nat) : Option Bool :=
  match parentId, childId with
  | none, _ => some false
  | _, none => some false
  | some p, some c =>
    if p = c then some false
    else
      match findByPk store p with
      | none => some false
      | some parent => (isDescendantOf store fuel parent c).map (fun b => !b)

/-- `aId` is an ancestor of `org` along the stored parent chain. -/
inductive IsAncestorOf (store : OrgStore) (aId : Nat) : Org → Prop
  | direct (org : Org) : org.parentId = some aId → IsAncestorOf store aId org
  | step (org parent : Org) (pid : Nat) :
      org.parentId = some pid → findByPk store pid = some parent →
      IsAncestorOf store aId parent → IsAncestorOf store aId org

/-! ## Membership rows and the destroy hook (part_000) -/

/-- A row of the `organization_users` table, with the fields the hooks
and guards use. -/
structure OrgUserRow where
  id : Nat
  userId : Nat
  organizationId : Nat
  role : String
  permissions : Option Perms
  isActive : Bool
deriving DecidableEq, Repr

/-- The count the `beforeDestroy` hook takes (part_000 lines 394-401):
other active `owner` rows of the same organization, excluding the row
being destroyed. -/
def countOtherOwners (store : List OrgUserRow) (orgUser : OrgUserRow) : Nat :=
  (store.filter (fun m =>
    m.organizationId = orgUser.organizationId && m.role = "owner" &&
    m.isActive && m.id ≠ orgUser.id)).length

/-- `beforeDestroy` hook (part_000 lines 391-407): an `owner` row with no
other active owner makes the destroy throw. -/
def beforeDestroy (store : List OrgUserRow) (orgUser : OrgUserRow) : Except String Unit :=
  if orgUser.role = "owner" then
    if countOtherOwners store orgUser = 0 then
      Except.error "Cannot remove the last owner of an organization"
    else
      Except.ok ()
  else
    Except.ok ()

/-- `destroy` on a membership row: the hook first; on success the row is
removed, on error the store is untouched and the error propagates. -/
def destroyMembership (store : List OrgUserRow) (orgUser : OrgUserRow) : Except String (List OrgUserRow) :=
  (beforeDestroy store orgUser).map (fun _ => store.filter (fun m => m.id ≠ orgUser.id))

/-! ## Tenant middleware and guards (tenant.middleware.js) -/

/-- The caller's account, as the middleware sees it; `isSuperAdmin`
models `req.user.isSuperAdmin()`. -/
structure SysUser where
  id : Nat
  isSuperAdmin : Bool
deriving DecidableEq, Repr

/-- The request signals `extractTenantIdentifier` reads: the two path
parameters, the two headers, the host, plus the authenticated user.
`none` is an absent field; an empty string is present but falsy. -/
structure Request where
  tenantSlug : Option String
  orgSlug : Option String
  xTenantId : Option String
  xOrganizationSlug : Option String
  host : Option String
  user : Option SysUser
deriving Repr

/-- JavaScript truthiness of an optional string: absent and `""` are
falsy. -/
def strTruthy : Option String → Bool
  | none => false
  | some s => !s.isEmpty

/-- `host.split('.')`, written as an explicit split of the character
list so that it evaluates: labels between dots, keeping empty labels,
and `[""]` for the empty string — exactly JavaScript's
`String.prototype.split('.')`. -/
def hostLabelsAux : List Char → List Char → List String
  | [], acc => [String.mk acc.reverse]
  | c :: rest, acc =>
    if c = '.' then String.mk acc.reverse :: hostLabelsAux rest []
    else hostLabelsAux rest (c :: acc)

def hostLabels (host : String) : List String :=
  hostLabelsAux host.data []

/-- `extractSubdomain(host)` (tenant.middleware.js lines 255-261): the
leftmost dot-separated label when there are at least three labels. -/
def extractSubdomain (host : String) : Option String :=
  let parts := hostLabels host
  if parts.length ≥ 3 then parts.head? else none

/-- `extractTenantIdentifier(req)` (tenant.middleware.js lines 219-250):
path parameters first (`tenantSlug`, then `orgSlug`), then the
`x-tenant-id` / `x-organization-slug` headers, then a subdomain that is
truthy and neither `www` nor `api`; otherwise `null`. -/
def extractTenantIdentifier (req : Request) : Option String :=
  if strTruthy req.tenantSlug then req.tenantSlug
  else if strTruthy req.orgSlug then req.orgSlug
  else
    let headerTenant := if strTruthy req.xTenantId then req.xTenantId else req.xOrganizationSlug
    if strTruthy headerTenant then headerTenant
    else
      match req.host with
      | none => none
      | some host =>
        if host = "" then none
        else
          match extractSubdomain host with
          | none => none
          | some subdomain =>
            if subdomain = "" then none
            else if subdomain = "www" then none
            else if subdomain = "api" then none
            else some subdomain

/-- The tenant context `tenantMiddleware` attaches to the request
(tenant.middleware.js lines 60-66). -/
structure ReqContext where
  user : Option SysUser
  tenant : Option Org
  orgMembership : Option OrgUserRow
deriving Repr

/-- Outcome of a guard middleware: fall through to `next()`, or an error
response with an HTTP status and reason code. -/
inductive GuardOutcome where
  | next
  | err (status : Nat) (code : String)
deriving DecidableEq, Repr

/-- `checkUserAccess(user, organizationId)` (tenant.middleware.js lines
266-282): super admins always pass, otherwise an active membership row
must exist. -/
def checkUserAccess (memberships : List OrgUserRow) (user : SysUser) (organizationId : Nat) : Bool :=
  user.isSuperAdmin ||
    (memberships.find? (fun m =>
      m.userId = user.id && m.organizationId = organizationId && m.isActive)).isSome

/-- `tenantMiddleware` (tenant.middleware.js lines 9-90): authentication,
tenant resolution, organization lookup, access check, then the context
with the (possibly absent) membership row attached. -/
def tenantMiddleware (orgs : OrgStore) (memberships : List OrgUserRow) (req : Request) :
    Except (Nat × String) ReqContext :=
  match req.user with
  | none => Except.error (401, "AUTHENTICATION_REQUIRED")
  | some user =>
    match extractTenantIdentifier req with
    | none => Except.error (400, "TENANT_REQUIRED")
    | some tenantSlug =>
      match orgs.find? (fun o => o.slug = tenantSlug && o.isActive) with
      | none => Except.error (404, "ORGANIZATION_NOT_FOUND")
      | some organization =>
        if !checkUserAccess memberships user organization.id then
          Except.error (403, "ORGANIZATION_ACCESS_DENIED")
        else
          let membership := memberships.find? (fun m =>
            m.userId = user.id && m.organizationId = organization.id && m.isActive)
          Except.ok { user := some user, tenant := some organization, orgMembership := membership }

/-- `requireOrgPermission(resource, action)` (tenant.middleware.js lines
186-214): the context check — tenant, user AND membership all present —
comes first and returns 401 otherwise; only then the super-admin bypass,
then `membership.hasPermission(resource, action)`. -/
def requireOrgPermission (resource action : String) (req : ReqContext) : GuardOutcome :=
  match req.tenant, req.user, req.orgMembership with
  | some _, some user, some membership =>
    if user.isSuperAdmin then GuardOutcome.next
    else if hasPermission membership.permissions resource action then GuardOutcome.next
    else GuardOutcome.err 403 "INSUFFICIENT_ORG_PERMISSIONS"
  | _, _, _ => GuardOutcome.err 401 "TENANT_CONTEXT_REQUIRED"

/-! ## Privilege order over the six roles -/

/-- The privilege order of the role enum (part_000 lines 36-43):
`owner > admin > manager > employee > viewer > guest`. -/
def roleRank : String → Nat
  | "owner" => 5
  | "admin" => 4
  | "manager" => 3
  | "employee" => 2
  | "viewer" => 1
  | _ => 0

/-- The six role values, most privileged first. -/
def roleList : List String :=
  ["owner", "admin", "manager", "employee", "viewer", "guest"]

/-- `p ≤ q` cell-wise: every cell that is `true` in `p` is `true` in `q`. -/
def permsLE (p q : Perms) : Bool :=
  p.all (fun r => r.2.all (fun a => !a.2 || hasPermission (some q) r.1 a.1))

/-! ## `getRolePermissions` with full JavaScript lookup semantics -/

/-- The string-keyed properties every plain object literal inherits from
`Object.prototype`; each holds a truthy value (a function, or for
`__proto__` the prototype object itself). -/
def objectPrototypeKeys : List String :=
  ["constructor", "toString", "toLocaleString", "valueOf", "hasOwnProperty",
   "isPrototypeOf", "propertyIsEnumerable", "__defineGetter__", "__defineSetter__",
   "__lookupGetter__", "__lookupSetter__", "__proto__"]

/-- What `rolePermissions[role] || rolePermissions.guest` can evaluate
to: one of the permission tables, or a truthy value inherited from
`Object.prototype` (which is not a permission table at all). -/
inductive JSLookupResult where
  | table (p : Perms)
  | protoValue (name : String)
deriving DecidableEq, Repr

/-- `getRolePermissions` (part_000 line 351) with JavaScript
property-lookup semantics for an arbitrary string input: bracket lookup
on the object literal consults the prototype chain, so a key of
`Object.prototype` (such as `constructor` or `toString`) yields that
inherited truthy value, which short-circuits the `||
rolePermissions.guest` fallback; only a key found neither on the
literal nor on `Object.prototype` falls back to the `guest` table. The
hooks call the function with the enum-constrained `role` column, for
which the plain-table embedding `getRolePermissions` is exact. -/
def getRolePermissionsJS (role : String) : JSLookupResult :=
  if role ∈ roleList then JSLookupResult.table (getRolePermissions role)
  else if role ∈ objectPrototypeKeys then JSLookupResult.protoValue role
  else JSLookupResult.table (getRolePermissions "guest")

/-- The permission map holds the exact boolean `true` at `(r, a)`. -/
def cellTrue (P : Perms) (r a : String) : Prop :=
  ∃ sub, lookupKey P r = some sub ∧ lookupKey sub a = some true

/-! ## Concrete instances used by the theorems -/

/-- The permission map reached by the C1 scenario: a membership whose
prior stored map is `start` has its role changed to `manager`, is then
granted `reports.export`, and has its role changed back to `viewer`. -/
def roleRevertFinal (start : Option Perms) : Perms :=
  beforeUpdateRoleChange "viewer"
    (some (grantPermission (some (beforeUpdateRoleChange "manager" start)) "reports" "export"))

/-- A corrupted organizations table: two organizations that are each
other's parent. -/
def cycStore : OrgStore :=
  [{ id := 1, name := "A", slug := "a", parentId := some 2, isActive := true },
   { id := 2, name := "B", slug := "b", parentId := some 1, isActive := true }]

def cycOrgA : Org := { id := 1, name := "A", slug := "a", parentId := some 2, isActive := true }

def cycOrgB : Org := { id := 2, name := "B", slug := "b", parentId := some 1, isActive := true }

/-- A well-formed three-level chain root → mid → leaf. -/
def chainStore : OrgStore :=
  [{ id := 10, name := "Root", slug := "root", parentId := none, isActive := true },
   { id := 11, name := "Mid", slug := "mid", parentId := some 10, isActive := true },
   { id := 12, name := "Leaf", slug := "leaf", parentId := some 11, isActive := true }]

def chainLeaf : Org := { id := 12, name := "Leaf", slug := "leaf", parentId := some 11, isActive := true }

/-- A two-organization store: `root` and its child `child`. -/
def demoStore : OrgStore :=
  [{ id := 1, name := "Root", slug := "root", parentId := none, isActive := true },
   { id := 2, name := "Child", slug := "child", parentId := some 1, isActive := true }]

def demoChild : Org := { id := 2, name := "Child", slug := "child", parentId := some 1, isActive := true }

/-- A super-admin caller. -/
def saUser : SysUser := { id := 7, isSuperAdmin := true }

/-- An active organization for the super-admin bypass scenario. -/
def acmeOrg : Org := { id := 1, name := "Acme", slug := "acme", parentId := none, isActive := true }

/-- A request addressing `acme` by path parameter, sent by the
super-admin. -/
def saRequest : Request :=
  { tenantSlug := some "acme", orgSlug := none, xTenantId := none,
    xOrganizationSlug := none, host := none, user := some saUser }

/-- The request of the C6 example: path parameter `acme` and header
`other-co` at once. -/
def acmeVsHeaderRequest : Request :=
  { tenantSlug := some "acme", orgSlug := none, xTenantId := some "other-co",
    xOrganizationSlug := none, host := none, user := none }

/-- An organization with a single active owner membership. -/
def soleOwnerStore : List OrgUserRow :=
  [{ id := 1, userId := 10, organizationId := 100, role := "owner",
     permissions := none, isActive := true }]

def soleOwnerRow : OrgUserRow :=
  { id := 1, userId := 10, organizationId := 100, role := "owner",
    permissions := none, isActive := true }

/-- An organization with two active owner memberships. -/
def twoOwnerStore : List OrgUserRow :=
  [{ id := 1, userId := 10, organizationId := 100, role := "owner",
     permissions := none, isActive := true },
   { id := 2, userId := 11, organizationId := 100, role := "owner",
     permissions := none, isActive := true }]

/-! ## Association-list lemmas -/

theorem lookupKey_setKey_self {α : Type} (xs : List (String × α)) (k : String) (v : α) :
    lookupKey (setKey xs k v) k = some v := by
  induction xs with
  | nil => simp [setKey, lookupKey]
  | cons p rest ih =>
    by_cases h : p.1 = k
    · simp [setKey, h, lookupKey]
    · simp [setKey, h, lookupKey, ih]

theorem lookupKey_setKey_ne {α : Type} (xs : List (String × α)) {k k' : String} (v : α)
    (h : k' ≠ k) : lookupKey (setKey xs k v) k' = lookupKey xs k' := by
  induction xs with
  | nil => simp [setKey, lookupKey, Ne.symm h]
  | cons p rest ih =>
    by_cases hp : p.1 = k
    · subst hp
      simp [setKey, lookupKey, Ne.symm h]
    · by_cases hp' : p.1 = k'
      · simp [setKey, hp, lookupKey, hp', h]
      · simp [setKey, hp, lookupKey, hp', ih]

theorem lookupKey_append_left {α : Type} (xs ys : List (String × α)) {k : String} {v : α}
    (h : lookupKey xs k = some v) : lookupKey (xs ++ ys) k = some v := by
  induction xs with
  | nil => simp [lookupKey] at h
  | cons p rest ih =>
    by_cases hp : p.1 = k
    · simp [lookupKey, hp] at h ⊢
      exact h
    · simp [lookupKey, hp] at h ⊢
      exact ih h

theorem lookupKey_append_of_none {α : Type} (xs ys : List (String × α)) {k : String}
    (h : lookupKey xs k = none) : lookupKey (xs ++ ys) k = lookupKey ys k := by
  induction xs with
  | nil => simp [lookupKey]
  | cons p rest ih =>
    by_cases hp : p.1 = k
    · simp [lookupKey, hp] at h
    · simp [lookupKey, hp] at h ⊢
      exact ih h

/-- `hasPermission` is `true` exactly when the stored cell is the exact
boolean `true`. -/
theorem hasPermission_iff_cellTrue (P : Option Perms) (r a : String) :
    hasPermission P r a = true ↔ cellTrue (P.getD []) r a := by
  unfold hasPermission cellTrue
  cases h : lookupKey (P.getD []) r with
  | none => simp [h]
  | some sub => simp [h]

theorem applyTrueGrants_cons (sub : ActionMap) (p : String × Bool) (rest : ActionMap) :
    applyTrueGrants sub (p :: rest) =
      applyTrueGrants (if p.2 then setKey sub p.1 true else sub) rest := rfl

/-- `applyTrueGrants` never un-sets a `true` cell of the base sub-map. -/
theorem applyTrueGrants_keeps_true (csub : ActionMap) (sub : ActionMap) {a : String}
    (h : lookupKey sub a = some true) :
    lookupKey (applyTrueGrants sub csub) a = some true := by
  induction csub generalizing sub with
  | nil => simpa [applyTrueGrants] using h
  | cons p rest ih =>
    rw [applyTrueGrants_cons]
    apply ih
    by_cases hv : p.2 = true
    · simp only [hv, if_true]
      by_cases ha : a = p.1
      · subst ha
        exact lookupKey_setKey_self ..
      · rw [lookupKey_setKey_ne _ _ ha]
        exact h
    · simp only [hv, if_false]
      exact h

/-- Every `true` cell of the prior sub-map ends up `true` after
`applyTrueGrants`. -/
theorem applyTrueGrants_applies_true (csub : ActionMap) (sub : ActionMap) {a : String}
    (h : lookupKey csub a = some true) :
    lookupKey (applyTrueGrants sub csub) a = some true := by
  induction csub generalizing sub with
  | nil => simp [lookupKey] at h
  | cons p rest ih =>
    rw [applyTrueGrants_cons]
    by_cases hp : p.1 = a
    · have hv : p.2 = true := by simpa [lookupKey, hp] using h
      apply applyTrueGrants_keeps_true
      simp [hv, hp, lookupKey_setKey_self]
    · have h' : lookupKey rest a = some true := by simpa [lookupKey, hp] using h
      exact ih _ h'

/-- `mergeStep` never un-sets a `true` cell of the accumulated map. -/
theorem mergeStep_keeps_cellTrue (merged : Perms) (p : String × ActionMap) {r a : String}
    (h : cellTrue merged r a) : cellTrue (mergeStep merged p) r a := by
  obtain ⟨sub, hr, ha⟩ := h
  unfold mergeStep
  split
  · exact ⟨sub, hr, ha⟩
  · next sub2 hm =>
    by_cases hp : r = p.1
    · subst hp
      rw [hm] at hr
      have e : sub2 = sub := Option.some.inj hr
      refine ⟨applyTrueGrants sub2 p.2, lookupKey_setKey_self .., ?_⟩
      apply applyTrueGrants_keeps_true
      rw [e]
      exact ha
    · exact ⟨sub, by rw [lookupKey_setKey_ne _ _ hp]; exact hr, ha⟩

/-- `mergeStep` never removes a resource key. -/
theorem mergeStep_isSome (merged : Perms) (p : String × ActionMap) {r : String}
    (h : (lookupKey merged r).isSome) : (lookupKey (mergeStep merged p) r).isSome := by
  unfold mergeStep
  split
  · exact h
  · next sub2 hm =>
    by_cases hp : r = p.1
    · subst hp
      rw [lookupKey_setKey_self]
      rfl
    · rw [lookupKey_setKey_ne _ _ hp]
      exact h

/-- The whole merge fold never un-sets a `true` cell of the accumulated
map. -/
theorem mergeFold_keeps_cellTrue (current : Perms) (merged : Perms) {r a : String}
    (h : cellTrue merged r a) : cellTrue (current.foldl mergeStep merged) r a := by
  induction current generalizing merged with
  | nil => exact h
  | cons p rest ih => exact ih _ (mergeStep_keeps_cellTrue _ _ h)

/-- Every `true` cell of the new role's default matrix survives the
role-change merge. -/
theorem mergeRolePermissions_keeps_default_trues (defaults current : Perms) {r a : String}
    (h : cellTrue defaults r a) : cellTrue (mergeRolePermissions defaults current) r a :=
  mergeFold_keeps_cellTrue current defaults h

/-- Every `true` cell of the prior map whose resource is present in the
new default matrix survives the role-change merge. -/
theorem mergeRolePermissions_applies_current_trues (current defaults : Perms) {r a : String}
    (hd : (lookupKey defaults r).isSome) (h : cellTrue current r a) :
    cellTrue (mergeRolePermissions defaults current) r a := by
  induction current generalizing defaults with
  | nil =>
    obtain ⟨sub, hr, _⟩ := h
    simp [lookupKey] at hr
  | cons p rest ih =>
    obtain ⟨csub, hr, ha⟩ := h
    show cellTrue (rest.foldl mergeStep (mergeStep defaults p)) r a
    by_cases hp : p.1 = r
    · have hc : csub = p.2 := by
        have := hr
        simp [lookupKey, hp] at this
        exact this.symm
      subst hc
      obtain ⟨dsub, hds⟩ := Option.isSome_iff_exists.mp hd
      have hstep : mergeStep defaults p = setKey defaults p.1 (applyTrueGrants dsub p.2) := by
        unfold mergeStep
        rw [hp, hds]
      rw [hstep, hp]
      apply mergeFold_keeps_cellTrue
      exact ⟨applyTrueGrants dsub p.2, lookupKey_setKey_self ..,
        applyTrueGrants_applies_true _ _ ha⟩
    · have hr' : lookupKey rest r = some csub := by
        simpa [lookupKey, hp] using hr
      exact ih (mergeStep defaults p) (mergeStep_isSome _ _ hd) ⟨csub, hr', ha⟩

/-- `grantPermission` sets the requested cell to `true`. -/
theorem grantPermission_sets (P : Option Perms) (r a : String) :
    cellTrue (grantPermission P r a) r a := by
  unfold grantPermission
  split
  · next h =>
    refine ⟨[(a, true)], ?_, by simp [lookupKey]⟩
    rw [lookupKey_append_of_none _ _ h]
    simp [lookupKey]
  · next sub h =>
    exact ⟨setKey sub a true, lookupKey_setKey_self .., lookupKey_setKey_self ..⟩

/-- `grantPermission` never un-sets another `true` cell. -/
theorem grantPermission_keeps_trues (P : Option Perms) (r a : String) {r' a' : String}
    (h : cellTrue (P.getD []) r' a') : cellTrue (grantPermission P r a) r' a' := by
  obtain ⟨sub', hr', ha'⟩ := h
  unfold grantPermission
  split
  · exact ⟨sub', lookupKey_append_left _ _ hr', ha'⟩
  · next sub hs =>
    by_cases hrr : r' = r
    · subst hrr
      rw [hs] at hr'
      have e : sub = sub' := Option.some.inj hr'
      refine ⟨setKey sub a true, lookupKey_setKey_self .., ?_⟩
      by_cases haa : a' = a
      · subst haa
        exact lookupKey_setKey_self ..
      · rw [lookupKey_setKey_ne _ _ haa, e]
        exact ha'
    · exact ⟨sub', by rw [lookupKey_setKey_ne _ _ hrr]; exact hr', ha'⟩

/-! ## Claim theorems -/

/-- Claim C8 (code bug): the `|| guest` fallback is reached only for
keys absent from the whole prototype chain. For an input that is a key
of `Object.prototype`, such as `toString` or `constructor`, the bracket
lookup returns the truthy inherited value — not the `guest` table —
falsifying the claim that every non-role input yields exactly the
`guest` table. An unknown key off the prototype chain (for example
`wizard`) does fall back to `guest`. -/
theorem getRolePermissions_guest_fallback_prototype_leak :
    getRolePermissionsJS "toString" = JSLookupResult.protoValue "toString" ∧
    getRolePermissionsJS "constructor" = JSLookupResult.protoValue "constructor" ∧
    getRolePermissionsJS "toString" ≠ JSLookupResult.table (getRolePermissions "guest") ∧
    getRolePermissionsJS "wizard" = JSLookupResult.table (getRolePermissions "guest") :=
  ⟨by decide, by decide, by decide, by decide⟩

/-- Claim C9: `hasPermission` is a total function (the Lean model is a
total `Bool`-valued function, so it never throws); it returns `false`
whenever the resource key or the action key is absent — also when the
stored map itself is `null` — and returns `true` exactly when the stored
cell is the boolean `true`. -/
theorem hasPermission_absent_is_false (P : Option Perms) (r a : String) :
    (lookupKey (P.getD []) r = none → hasPermission P r a = false) ∧
    (∀ sub, lookupKey (P.getD []) r = some sub → lookupKey sub a = none →
      hasPermission P r a = false) ∧
    (hasPermission P r a = true ↔
      ∃ sub, lookupKey (P.getD []) r = some sub ∧ lookupKey sub a = some true) := by
  refine ⟨?_, ?_, ?_⟩
  · intro h
    simp [hasPermission, h]
  · intro sub hs ha
    simp [hasPermission, hs, ha]
  · simpa [cellTrue] using hasPermission_iff_cellTrue P r a

/-- Witness for C9: a map holding only `reports.read = true`; an absent
resource key, an absent action key and a `null` map all answer `false`,
and the present `true` cell answers `true`. -/
theorem hasPermission_absent_is_false_witness :
    hasPermission (some [("reports", [("read", true)])]) "billing" "read" = false ∧
    hasPermission (some [("reports", [("read", true)])]) "reports" "write" = false ∧
    hasPermission none "reports" "read" = false ∧
    hasPermission (some [("reports", [("read", true)])]) "reports" "read" = true :=
  ⟨(hasPermission_absent_is_false (some [("reports", [("read", true)])]) "billing" "read").1 rfl,
   (hasPermission_absent_is_false (some [("reports", [("read", true)])]) "reports" "write").2.1
     [("read", true)] rfl rfl,
   (hasPermission_absent_is_false none "reports" "read").1 rfl,
   (hasPermission_absent_is_false (some [("reports", [("read", true)])]) "reports" "read").2.2.mpr
     ⟨[("read", true)], rfl, rfl⟩⟩

/-- Claim C10: the six role default tables are monotone along the
privilege order `owner > admin > manager > employee > viewer > guest`:
for any two of the six roles, every cell that is `true` in the less
privileged role's table is `true` in the more privileged role's table;
and the `viewer` and `employee` tables are identical. -/
theorem rolePermissions_monotone :
    (roleList.all (fun r => roleList.all (fun s =>
      !(decide (roleRank s ≤ roleRank r)) ||
        permsLE (getRolePermissions s) (getRolePermissions r)))) = true ∧
    getRolePermissions "viewer" = getRolePermissions "employee" := by
  exact ⟨by decide, rfl⟩

/-- Claim C5: destroying an active `owner` membership fails with the
last-owner error — leaving the store untouched — exactly when no other
active owner membership of the same organization exists; with at least
one other active owner, the destroy succeeds and removes the row. -/
theorem destroyMembership_last_owner_invariant (store : List OrgUserRow) (orgUser : OrgUserRow) :
    (orgUser.role = "owner" → countOtherOwners store orgUser = 0 →
      destroyMembership store orgUser =
        Except.error "Cannot remove the last owner of an organization") ∧
    (1 ≤ countOtherOwners store orgUser →
      destroyMembership store orgUser =
        Except.ok (store.filter (fun m => m.id ≠ orgUser.id))) := by
  constructor
  · intro hrole hcount
    simp [destroyMembership, beforeDestroy, hrole, hcount, Except.map]
  · intro hcount
    have hne : countOtherOwners store orgUser ≠ 0 := by omega
    by_cases hrole : orgUser.role = "owner"
    · simp [destroyMembership, beforeDestroy, hrole, hne, Except.map]
    · simp [destroyMembership, beforeDestroy, hrole, Except.map]

/-- Witness for C5: a sole active owner cannot be destroyed; with a
second active owner the destroy removes the row. -/
theorem destroyMembership_last_owner_invariant_witness :
    destroyMembership soleOwnerStore soleOwnerRow =
      Except.error "Cannot remove the last owner of an organization" ∧
    destroyMembership twoOwnerStore soleOwnerRow =
      Except.ok (twoOwnerStore.filter (fun m => m.id ≠ soleOwnerRow.id)) :=
  ⟨(destroyMembership_last_owner_invariant soleOwnerStore soleOwnerRow).1 rfl (by decide),
   (destroyMembership_last_owner_invariant twoOwnerStore soleOwnerRow).2 (by decide)⟩

/-- Claim C6: the tenant identifier resolver returns the first signal
present in strict priority order — path parameters, then the designated
headers, then the host subdomain, which is the leftmost host label taken
only when the host has at least three dot-separated labels and the label
is truthy and neither `www` nor `api` — and returns no tenant when no
signal matches. -/
theorem extractTenantIdentifier_priority (req : Request) :
    (strTruthy req.tenantSlug = true → extractTenantIdentifier req = req.tenantSlug) ∧
    (strTruthy req.tenantSlug = false → strTruthy req.orgSlug = true →
      extractTenantIdentifier req = req.orgSlug) ∧
    (strTruthy req.tenantSlug = false → strTruthy req.orgSlug = false →
      strTruthy req.xTenantId = true → extractTenantIdentifier req = req.xTenantId) ∧
    (strTruthy req.tenantSlug = false → strTruthy req.orgSlug = false →
      strTruthy req.xTenantId = false → strTruthy req.xOrganizationSlug = true →
      extractTenantIdentifier req = req.xOrganizationSlug) ∧
    (∀ h sub, strTruthy req.tenantSlug = false → strTruthy req.orgSlug = false →
      strTruthy req.xTenantId = false → strTruthy req.xOrganizationSlug = false →
      req.host = some h → (hostLabels h).length ≥ 3 → (hostLabels h).head? = some sub →
      sub ≠ "" → sub ≠ "www" → sub ≠ "api" →
      extractTenantIdentifier req = some sub) ∧
    (strTruthy req.tenantSlug = false → strTruthy req.orgSlug = false →
      strTruthy req.xTenantId = false → strTruthy req.xOrganizationSlug = false →
      req.host = none →
      extractTenantIdentifier req = none) ∧
    (∀ h, strTruthy req.tenantSlug = false → strTruthy req.orgSlug = false →
      strTruthy req.xTenantId = false → strTruthy req.xOrganizationSlug = false →
      req.host = some h →
      ((hostLabels h).length < 3 ∨
        (∃ sub, (hostLabels h).head? = some sub ∧
          (sub = "" ∨ sub = "www" ∨ sub = "api"))) →
      extractTenantIdentifier req = none) := by
  refine ⟨?_, ?_, ?_, ?_, ?_, ?_, ?_⟩
  · intro h1
    simp [extractTenantIdentifier, h1]
  · intro h1 h2
    simp [extractTenantIdentifier, h1, h2]
  · intro h1 h2 h3
    simp [extractTenantIdentifier, h1, h2, h3]
  · intro h1 h2 h3 h4
    simp [extractTenantIdentifier, h1, h2, h3, h4]
  · intro h sub h1 h2 h3 h4 hh hlen hhd hne hw ha
    have hemp : h ≠ "" := by
      intro he
      subst he
      simp [show hostLabels "" = [""] from rfl] at hlen
    simp [extractTenantIdentifier, h1, h2, h3, h4, hh, hemp, extractSubdomain, hlen, hhd,
      hne, hw, ha]
  · intro h1 h2 h3 h4 hh
    simp [extractTenantIdentifier, h1, h2, h3, h4, hh]
  · intro h h1 h2 h3 h4 hh hbad
    by_cases hemp : h = ""
    · simp [extractTenantIdentifier, h1, h2, h3, h4, hh, hemp]
    · rcases hbad with hlen | ⟨sub, hhd, hcase⟩
      · have hnl : ¬ (hostLabels h).length ≥ 3 := by omega
        simp [extractTenantIdentifier, h1, h2, h3, h4, hh, hemp, extractSubdomain, hnl]
      · by_cases hlen : (hostLabels h).length ≥ 3
        · rcases hcase with rfl | rfl | rfl <;>
            simp [extractTenantIdentifier, h1, h2, h3, h4, hh, hemp, extractSubdomain, hlen, hhd]
        · simp [extractTenantIdentifier, h1, h2, h3, h4, hh, hemp, extractSubdomain, hlen]

/-- Witness for C6: the claim's concrete example — path parameter `acme`
together with header `other-co` resolves to `acme` — plus a subdomain
resolution and a no-signal case. -/
theorem extractTenantIdentifier_priority_witness :
    extractTenantIdentifier acmeVsHeaderRequest = some "acme" ∧
    extractTenantIdentifier
      { tenantSlug := none, orgSlug := none, xTenantId := none,
        xOrganizationSlug := none, host := some "tenant1.example.com", user := none } =
      some "tenant1" ∧
    extractTenantIdentifier
      { tenantSlug := none, orgSlug := none, xTenantId := none,
        xOrganizationSlug := none, host := some "www.example.com", user := none } = none ∧
    extractTenantIdentifier
      { tenantSlug := none, orgSlug := none, xTenantId := none,
        xOrganizationSlug := none, host := some "example.com", user := none } = none :=
  ⟨(extractTenantIdentifier_priority acmeVsHeaderRequest).1 rfl,
   (extractTenantIdentifier_priority _).2.2.2.2.1 "tenant1.example.com" "tenant1"
     rfl rfl rfl rfl rfl (by decide) rfl (by decide) (by decide) (by decide),
   (extractTenantIdentifier_priority _).2.2.2.2.2.2 "www.example.com"
     rfl rfl rfl rfl rfl (Or.inr ⟨"www", rfl, Or.inr (Or.inl rfl)⟩),
   (extractTenantIdentifier_priority _).2.2.2.2.2.2 "example.com"
     rfl rfl rfl rfl rfl (Or.inl (by decide))⟩

/-- An ancestor along the stored parent chain is found by the
`isDescendantOf` walk, given enough fuel. -/
theorem isAncestor_implies_walk (store : OrgStore) (aId : Nat) (org : Org)
    (h : IsAncestorOf store aId org) :
    ∃ n, isDescendantOf store n org aId = some true := by
  induction h with
  | direct org hpar =>
    exact ⟨1, by simp [isDescendantOf, hpar]⟩
  | step org parent pid hpar hfind _ ih =>
    obtain ⟨n, hn⟩ := ih
    by_cases hpid : pid = aId
    · exact ⟨n + 1, by simp [isDescendantOf, hpar, hpid]⟩
    · exact ⟨n + 1, by simp [isDescendantOf, hpar, hpid, hfind, hn]⟩

/-- Claim C7: `validateHierarchy(parentId, childId)` rejects
self-parenting, rejects a missing parent organization, and rejects a
`parentId` that is a descendant of `childId` (i.e. `childId` already an
ancestor of `parentId`). -/
theorem validateHierarchy_rejects (store : OrgStore) (fuel : Nat) (p c : Nat) (parent : Org) :
    (validateHierarchy store fuel (some p) (some p) = some false) ∧
    (findByPk store p = none → validateHierarchy store fuel (some p) (some c) = some false) ∧
    (findByPk store p = some parent → IsAncestorOf store c parent →
      ∃ n, validateHierarchy store n (some p) (some c) = some false) := by
  refine ⟨?_, ?_, ?_⟩
  · simp [validateHierarchy]
  · intro h
    by_cases hpc : p = c
    · simp [validateHierarchy, hpc]
    · simp [validateHierarchy, hpc, h]
  · intro hp hanc
    obtain ⟨n, hn⟩ := isAncestor_implies_walk store c parent hanc
    by_cases hpc : p = c
    · exact ⟨1, by simp [validateHierarchy, hpc]⟩
    · exact ⟨n, by simp [validateHierarchy, hpc, hp, hn]⟩

/-- Witness for C7: on a two-organization store `root ← child`,
self-parenting is rejected, a missing parent id is rejected, and making
the child the parent of its own ancestor is rejected. -/
theorem validateHierarchy_rejects_witness :
    validateHierarchy demoStore 5 (some 2) (some 2) = some false ∧
    validateHierarchy demoStore 5 (some 99) (some 1) = some false ∧
    ∃ n, validateHierarchy demoStore n (some 2) (some 1) = some false :=
  ⟨(validateHierarchy_rejects demoStore 5 2 2 demoChild).1,
   (validateHierarchy_rejects demoStore 5 99 1 demoChild).2.1 rfl,
   (validateHierarchy_rejects demoStore 5 2 1 demoChild).2.2 rfl
     (IsAncestorOf.direct _ rfl)⟩

/-- Claim C4 (code bug): `getFullHierarchy` has no maximum-depth bound
and no `HierarchyCorruption` failure: on the cyclic store the walk never
finishes for any number of iterations (the loop runs forever), while on
a well-formed chain it returns the ordered sequence root → ... → self. -/
theorem getFullHierarchy_unbounded_on_cycle :
    (∀ fuel, getFullHierarchy cycStore fuel cycOrgA = none) ∧
    getFullHierarchy chainStore 3 chainLeaf =
      some [{ id := 10, name := "Root", slug := "root" },
            { id := 11, name := "Mid", slug := "mid" },
            { id := 12, name := "Leaf", slug := "leaf" }] := by
  constructor
  · have aux : ∀ fuel, (∀ acc, getFullHierarchyFuel cycStore fuel cycOrgA acc = none) ∧
        (∀ acc, getFullHierarchyFuel cycStore fuel cycOrgB acc = none) := by
      intro fuel
      induction fuel with
      | zero => exact ⟨fun _ => rfl, fun _ => rfl⟩
      | succ n ih =>
        refine ⟨fun acc => ?_, fun acc => ?_⟩
        · show getFullHierarchyFuel cycStore n cycOrgB (entryOf cycOrgA :: acc) = none
          exact ih.2 _
        · show getFullHierarchyFuel cycStore n cycOrgA (entryOf cycOrgB :: acc) = none
          exact ih.1 _
    exact fun fuel => (aux fuel).1 []
  · rfl

/-- Claim C2 (code bug): the tenant middleware grants a membership-less
super admin access and attaches a context whose membership is `null`,
but `requireOrgPermission` then returns 401 `TENANT_CONTEXT_REQUIRED`
for every `(resource, action)` pair — the context null-check precedes
the super-admin bypass — instead of passing. -/
theorem requireOrgPermission_superAdmin_nullMembership_denied :
    ∃ ctx, tenantMiddleware [acmeOrg] [] saRequest = Except.ok ctx ∧
      ctx.orgMembership = none ∧ ctx.user = some saUser ∧
      (∀ resource action, requireOrgPermission resource action ctx =
        GuardOutcome.err 401 "TENANT_CONTEXT_REQUIRED") ∧
      (∀ resource action, requireOrgPermission resource action ctx ≠ GuardOutcome.next) := by
  refine ⟨{ user := some saUser, tenant := some acmeOrg, orgMembership := none },
    rfl, rfl, rfl, fun _ _ => rfl, fun r a h => ?_⟩
  simp [requireOrgPermission] at h

/-- Claim C3 (code bug): a membership created without explicitly
supplied permissions stores the all-`false` `permissions` field default,
not the role's default matrix: the ORM fills the field default at build
time, before `beforeCreate` runs, so the hook's emptiness check sees a
populated map and leaves it — and the field default differs from every
role matrix (whose `organizations.read` is `true`). -/
theorem createdPermissions_is_field_default (suppliedRole : Option String) :
    createdPermissions suppliedRole none = permissionsFieldDefault ∧
    hasPermission (some permissionsFieldDefault) "organizations" "read" = false ∧
    hasPermission (some (getRolePermissions (buildRole suppliedRole))) "organizations" "read"
      = true ∧
    createdPermissions suppliedRole none ≠ getRolePermissions (buildRole suppliedRole) := by
  have hrole : ∀ role : String,
      hasPermission (some (getRolePermissions role)) "organizations" "read" = true := by
    intro role
    unfold getRolePermissions
    split_ifs <;> rfl
  refine ⟨rfl, rfl, hrole _, ?_⟩
  intro h
  have hfalse : hasPermission (some (getRolePermissions (buildRole suppliedRole)))
      "organizations" "read" = false := by
    rw [← h]
    rfl
  rw [hrole _] at hfalse
  exact Bool.noConfusion hfalse

/-- Counterexample to claim C1 as stated: starting from the `viewer`
default matrix, after viewer → manager, granting `reports.export`, and
manager → viewer, the recomputed map has `reports.write = true` — not
`false` as claimed — because the merge re-applies every `true` cell of
the prior stored map, including those that came from the `manager` role
defaults. -/
theorem roleRevert_write_not_reverted_cex :
    hasPermission (some (roleRevertFinal (some (getRolePermissions "viewer"))))
      "reports" "export" = true ∧
    hasPermission (some (roleRevertFinal (some (getRolePermissions "viewer"))))
      "reports" "write" = true ∧
    ¬ (hasPermission (some (roleRevertFinal (some (getRolePermissions "viewer"))))
      "reports" "write" = false) := by
  refine ⟨rfl, rfl, ?_⟩
  intro h
  exact Bool.noConfusion ((rfl :
    hasPermission (some (roleRevertFinal (some (getRolePermissions "viewer"))))
      "reports" "write" = true).symm.trans h)

/-- Claim C1 as amended: for every membership (whatever its prior stored
map) whose role goes viewer → manager, then gets `reports.export=true`,
then goes back to viewer, the recomputed map has `reports.export = true`
and also `reports.write = true`: the recompute starts from the new
role's default matrix and re-applies every prior `true` grant whose
resource is present in the new default map, without distinguishing
custom grants from the prior role's defaults. -/
theorem roleRevert_customGrant_persists (start : Option Perms) :
    hasPermission (some (roleRevertFinal start)) "reports" "export" = true ∧
    hasPermission (some (roleRevertFinal start)) "reports" "write" = true := by
  have hmw : cellTrue (getRolePermissions "manager") "reports" "write" :=
    ⟨[("read", true), ("write", true), ("export", true)], rfl, rfl⟩
  have h1w : cellTrue (beforeUpdateRoleChange "manager" start) "reports" "write" :=
    mergeRolePermissions_keeps_default_trues _ _ hmw
  have h2w : cellTrue (grantPermission (some (beforeUpdateRoleChange "manager" start))
      "reports" "export") "reports" "write" :=
    grantPermission_keeps_trues _ "reports" "export" h1w
  have h2e : cellTrue (grantPermission (some (beforeUpdateRoleChange "manager" start))
      "reports" "export") "reports" "export" :=
    grantPermission_sets _ "reports" "export"
  have hvsome : (lookupKey (getRolePermissions "viewer") "reports").isSome := by decide
  have h3w : cellTrue (roleRevertFinal start) "reports" "write" :=
    mergeRolePermissions_applies_current_trues _ _ hvsome h2w
  have h3e : cellTrue (roleRevertFinal start) "reports" "export" :=
    mergeRolePermissions_applies_current_trues _ _ hvsome h2e
  exact ⟨(hasPermission_iff_cellTrue _ _ _).mpr h3e,
    (hasPermission_iff_cellTrue _ _ _).mpr h3w⟩

end Mordecai
